import Mathlib

/-!
Verification of the dalan road-damage detection pipeline.

This file shallowly embeds the detection-result aggregation and
entry-lifecycle pipeline of the dalan repository:

* `src/api/services/detection.py` — `classify_image` (the detector adapter
  plus the detection reducer) and `queue_detection_job`;
* `src/api/routers/entries.py` — `create_entry` (entry lifecycle: validate,
  persist placeholder, inline detection, reconcile) and `get_entry`
  (the read-side merged view);
* `src/backend/database/operations.py` — the table operations
  (`create_entry`, `create_crack_detection`, `create_detection_summary`,
  `update_entry`, `get_entry_by_id`, `get_detection_summary`, `get_user`);
* `src/backend/utils/validators.py` — `validate_coordinates`;
* `src/backend/handlers/detection/process.py` — the SQS consumer's
  message-field extraction.

Modelling conventions: Python floats become exact rationals `ℚ`;
`round(x, 1)` is idealised as decimal round-half-to-even on `ℚ`
(`pyRound1`); Python dicts (which preserve insertion order) become
association lists; database tables become lists of rows, and a Supabase
`insert` appends; `uuid4`/wall-clock values are modelled by a counter
threaded through the state (`mkId`), and timestamp columns are elided.
External collaborators (S3, the auth provider) appear as oracles or as
the stored-object list of `SysState`.
-/

namespace Dalan

/-- Decimal rounding to an integer, half to even — the idealisation over `ℚ`
of Python's builtin `round` (banker's rounding). -/
def roundHalfEven (q : ℚ) : ℤ :=
  if q - ⌊q⌋ = 1/2 then (if 2 ∣ ⌊q⌋ then ⌊q⌋ else ⌊q⌋ + 1) else round q

/-- Python `round(q, 1)` idealised over `ℚ`. -/
def pyRound1 (q : ℚ) : ℚ := (roundHalfEven (q * 10) : ℚ) / 10

/-- One raw detection record, as built per bounding box inside
`classify_image` (src/api/services/detection.py lines 199–207):
integer-cast box corners, confidence, class id and class label. -/
structure RawDetection where
  x1 : Int
  y1 : Int
  x2 : Int
  y2 : Int
  confidence : ℚ
  class_id : Nat
  label : String
  deriving DecidableEq, Repr

/-- The per-label value of the formatted `crack_types` mapping
(src/api/services/detection.py lines 224–227). -/
structure TypeStat where
  count : Nat
  avg_confidence : ℚ
  deriving DecidableEq, Repr

/-- Accumulator per label while grouping: running count and the list of
confidences (src/api/services/detection.py lines 157–164). -/
structure GroupAcc where
  count : Nat
  confidences : List ℚ
  deriving DecidableEq, Repr

/-- Insertion-ordered association-list lookup (Python dict access). -/
def lookupKey {α : Type} : List (String × α) → String → Option α
  | [], _ => none
  | (l, v) :: rest, k => if l = k then some v else lookupKey rest k

/-- One step of the grouping loop of `classify_image`: bump the label's
count and append the confidence, or start a fresh group (lines 156–164).
Python dicts keep insertion order, so a fresh label goes to the back. -/
def addConf : List (String × GroupAcc) → String → ℚ → List (String × GroupAcc)
  | [], lab, c => [(lab, ⟨1, [c]⟩)]
  | (l, g) :: rest, lab, c =>
      if l = lab then (l, ⟨g.count + 1, g.confidences ++ [c]⟩) :: rest
      else (l, g) :: addConf rest lab c

/-- The grouping pass of `classify_image` over the detection list. -/
def groupConfs (ds : List RawDetection) : List (String × GroupAcc) :=
  ds.foldl (fun acc d => addConf acc d.label d.confidence) []

/-- Formatting one group (src/api/services/detection.py lines 222–227):
`avg_confidence = round(sum(confidences) / len(confidences) * 100, 1)` —
the mean is converted to a percentage and rounded to one decimal place
here, inside the reducer. -/
def formatStat (g : GroupAcc) : TypeStat :=
  { count := g.count
    avg_confidence := pyRound1 (g.confidences.sum / (g.confidences.length : ℚ) * 100) }

/-- `crack_types` in "frontend format" (lines 220–227). -/
def formatCrackTypes (cts : List (String × GroupAcc)) : List (String × TypeStat) :=
  cts.map (fun p => (p.1, formatStat p.2))

/-- The value returned by `classify_image`
(src/api/services/detection.py lines 229–234). -/
structure DetectionResult where
  total_cracks : Nat
  crack_types : List (String × TypeStat)
  detections : List RawDetection
  classified_image_url : Option String
  deriving DecidableEq, Repr

/-- The fixed fallback value `classify_image` returns when the model is
unavailable (lines 102–117) or when inference raises (lines 235–253):
one "alligator" crack, confidence 0.85, `avg_confidence` 85.0, no
classified image. -/
def fallbackResult : DetectionResult :=
  { total_cracks := 1
    crack_types := [("alligator", ⟨1, 85⟩)]
    detections := [⟨100, 100, 200, 200, 17/20, 0, "alligator"⟩]
    classified_image_url := none }

/-- The success branch of `classify_image` (lines 119–234): detections are
the per-box records, `total_cracks = len(detections)`, `crack_types` is the
formatted grouping, and the annotated image is saved (yielding a URL) only
when at least one box was found. -/
def classifyImageSuccess (ds : List RawDetection) (savedUrl : String) : DetectionResult :=
  { total_cracks := ds.length
    crack_types := formatCrackTypes (groupConfs ds)
    detections := ds
    classified_image_url := if ds.isEmpty then none else some savedUrl }

/-- Condition of the detector when `classify_image` runs: the model is
loaded and inference yields the given boxes, or the model is unavailable
(`USE_YOLO` false / `model is None`), or inference raises inside the
`try` block. -/
inductive DetectorState where
  | ready (boxes : List RawDetection)
  | modelUnavailable
  | inferenceError
  deriving DecidableEq, Repr

/-- `classify_image` (src/api/services/detection.py lines 98–253).
Every branch returns a plain result dict: the unavailable-model branch and
the exception handler both return `fallbackResult`; no error is ever
raised to the caller. -/
def classify_image (det : DetectorState) (savedUrl : String) : DetectionResult :=
  match det with
  | .ready ds => classifyImageSuccess ds savedUrl
  | .modelUnavailable => fallbackResult
  | .inferenceError => fallbackResult

/-- `CRACK_TYPES` (src/api/services/detection.py line 17). -/
def CRACK_TYPES : List String := ["alligator", "longitudinal", "transverse", "pothole"]

/-- Inner loop of Python `max(keys, key=count)`: the current best is
replaced only on a strictly greater count, so the first maximal key wins. -/
def maxByCountGo (best : String) (bestCount : Nat) : List (String × TypeStat) → String
  | [] => best
  | (l, s) :: rest =>
      if bestCount < s.count then maxByCountGo l s.count rest
      else maxByCountGo best bestCount rest

/-- `max(crack_types.keys(), key=lambda x: crack_types[x]["count"])`
(src/api/routers/entries.py line 186); `none` on an empty dict. -/
def maxByCount : List (String × TypeStat) → Option String
  | [] => none
  | (l, s) :: rest => some (maxByCountGo l s.count rest)

/-- The primary-crack-type decision of `create_entry`
(src/api/routers/entries.py lines 180–190). -/
def primaryCrackType (r : DetectionResult) : String :=
  if 0 < r.total_cracks then
    match maxByCount r.crack_types with
    | some l => l
    | none => "unknown"
  else "no_cracks"

/-- A row of the road-crack entries table (timestamp column elided). -/
structure EntryRow where
  id : String
  title : String
  description : String
  location : String
  coordinates : List ℚ
  severity : String
  type : String
  image_url : String
  classified_image_url : Option String
  user_id : String
  deriving DecidableEq, Repr

/-- A row of the crack-detections table, as written by `create_entry`
(src/api/routers/entries.py lines 204–215; timestamp elided). -/
structure DetectionRow where
  id : String
  road_crack_id : String
  crack_type : String
  confidence : ℚ
  x1 : Int
  y1 : Int
  x2 : Int
  y2 : Int
  deriving DecidableEq, Repr

/-- A row of the detection-summaries table (lines 218–224; timestamp
elided). -/
structure SummaryRow where
  id : String
  road_crack_id : String
  total_cracks : Nat
  crack_types : List (String × TypeStat)
  deriving DecidableEq, Repr

/-- The three tables (src/backend/database/operations.py). -/
structure DB where
  road_cracks : List EntryRow
  crack_detections : List DetectionRow
  detection_summaries : List SummaryRow
  deriving DecidableEq, Repr

/-- The update payload `create_entry` sends to `update_entry`
(src/api/routers/entries.py lines 192–195): always `type`, plus
`classified_image_url` only when the detection produced one. `none`
means the key is absent and the column is left untouched. -/
structure EntryUpdate where
  type : String
  classified_image_url : Option String
  deriving DecidableEq, Repr

/-- Apply an `EntryUpdate` to one row. -/
def applyUpdate (u : EntryUpdate) (r : EntryRow) : EntryRow :=
  { r with
    type := u.type
    classified_image_url :=
      match u.classified_image_url with
      | some url => some url
      | none => r.classified_image_url }

namespace Database

/-- `get_entry_by_id` (operations.py lines 51–66): first row matching the
id, or `None`. -/
def get_entry_by_id (db : DB) (entry_id : String) : Option EntryRow :=
  db.road_cracks.find? (fun r => r.id == entry_id)

/-- `get_crack_detections` (operations.py lines 68–83). -/
def get_crack_detections (db : DB) (road_crack_id : String) : List DetectionRow :=
  db.crack_detections.filter (fun r => r.road_crack_id == road_crack_id)

/-- `get_detection_summary` (operations.py lines 85–100):
`response.data[0] if response.data else None`. -/
def get_detection_summary (db : DB) (road_crack_id : String) : Option SummaryRow :=
  (db.detection_summaries.filter (fun r => r.road_crack_id == road_crack_id)).head?

/-- `create_entry` (operations.py lines 102–117): a plain insert. -/
def create_entry (db : DB) (row : EntryRow) : DB :=
  { db with road_cracks := db.road_cracks ++ [row] }

/-- `create_crack_detection` (operations.py lines 119–134): a plain
insert — it never deletes or replaces prior rows. -/
def create_crack_detection (db : DB) (row : DetectionRow) : DB :=
  { db with crack_detections := db.crack_detections ++ [row] }

/-- `create_detection_summary` (operations.py lines 136–151): a plain
insert — it never deletes or replaces prior summaries. -/
def create_detection_summary (db : DB) (row : SummaryRow) : DB :=
  { db with detection_summaries := db.detection_summaries ++ [row] }

/-- `update_entry` (operations.py lines 153–169): updates every row whose
id matches and returns the first updated row, or `None` when no row
matched. -/
def update_entry (db : DB) (entry_id : String) (u : EntryUpdate) : DB × Option EntryRow :=
  let db' := { db with
    road_cracks := db.road_cracks.map (fun r => if r.id == entry_id then applyUpdate u r else r) }
  (db', ((db.road_cracks.filter (fun r => r.id == entry_id)).map (applyUpdate u)).head?)

end Database

/-- A user record as returned by `get_user` / `get_auth_user`
(operations.py lines 189–290). -/
structure UserRec where
  id : String
  name : String
  email : String
  avatar_url : Option String
  deriving DecidableEq, Repr

/-- The one user id special-cased in `get_user` (operations.py line 275). -/
def mattId : String := "ec74d8c5-a458-4191-9464-bdf90a8932bc"

/-- The generic fallback user built in `get_user` (operations.py
lines 283–290). -/
def communityUser (user_id : String) : UserRec :=
  { id := user_id
    name := "Community User"
    email := "user-" ++ user_id.take 8 ++ "@dalan.app"
    avatar_url := none }

/-- `get_user` (operations.py lines 255–290). The auth-provider lookup
(`get_auth_user`) is an oracle; every branch of the function returns a
record, never `None`. -/
def get_user (oracle : String → Option UserRec) (user_id : String) : Option UserRec :=
  match oracle user_id with
  | some u => some u
  | none =>
      if user_id = mattId then
        some { id := user_id
               name := "Matthew Enarle"
               email := "enarlem10@gmail.com"
               avatar_url := none }
      else some (communityUser user_id)

/-- `validate_coordinates` (src/backend/utils/validators.py lines 49–72).
Defined in the repository, but never called by any create path. -/
def validate_coordinates (coordinates : List ℚ) : Bool :=
  match coordinates with
  | [longitude, latitude] =>
      if longitude < -180 ∨ 180 < longitude then false
      else if latitude < -90 ∨ 90 < latitude then false
      else true
  | _ => false

/-- The job `queue_detection_job` enqueues
(src/api/services/detection.py lines 255–272). -/
structure QueueJob where
  entry_id : String
  image_url : String
  user_id : String
  deriving DecidableEq, Repr

/-- The JSON body `queue_detection_job` sends, as a key–value list:
keys `entry_id`, `image_url`, `user_id` (lines 258–262). -/
def jobMessageBody (j : QueueJob) : List (String × String) :=
  [("entry_id", j.entry_id), ("image_url", j.image_url), ("user_id", j.user_id)]

/-- Python truthiness of `body.get(key)`: `None` and the empty string are
falsy. -/
def truthy : Option String → Bool
  | none => false
  | some s => !s.isEmpty

/-- `body.get(key)` on a decoded JSON object. -/
def getField (body : List (String × String)) (k : String) : Option String :=
  match body.find? (fun p => p.1 == k) with
  | some p => some p.2
  | none => none

/-- Outcome of the SQS detection consumer on one message. -/
inductive ProcessOutcome where
  | errorResponse (status : Nat) (msg : String)
  | accepted (road_crack_id : String) (image_data : String) (user_id : String)
  deriving DecidableEq, Repr

/-- The message-shape guard of the SQS detection consumer
(src/backend/handlers/detection/process.py lines 42–59): it extracts
`road_crack_id`, `image_data` and `user_id` from the message body and
returns a 400 error when any is missing or falsy. Only this guard is
embedded: for every job the synchronous path enqueues it already rejects
the message, so the rest of the handler never runs on those inputs. -/
def detection_process_guard (body : List (String × String)) : ProcessOutcome :=
  let road_crack_id := getField body "road_crack_id"
  let image_data := getField body "image_data"
  let user_id := getField body "user_id"
  if !truthy road_crack_id || !truthy image_data || !truthy user_id then
    .errorResponse 400 "Missing required fields in message"
  else
    .accepted (road_crack_id.getD "") (image_data.getD "") (user_id.getD "")

/-- Deterministic stand-in for `uuid.uuid4()`: the n-th generated id. -/
def mkId (n : Nat) : String := "uuid-" ++ toString n

/-- The S3 key/URL `save_image` produces (src/api/utils.py lines 46–84);
`save_image` never raises — on failure it returns a placeholder URL, so
the model keeps a single success shape. -/
def save_image_url (user_id kind : String) (n : Nat) : String :=
  "https://dalan-yolo-models.s3.amazonaws.com/images/" ++ kind ++ "/" ++ user_id ++ "/" ++ mkId n ++ ".jpg"

/-- Whole-system state: tables, stored S3 objects, queued jobs, and the
id-generation counter. -/
structure SysState where
  db : DB
  s3 : List String
  queue : List QueueJob
  gen : Nat
  deriving DecidableEq, Repr

/-- The detection rows `create_entry` writes, one insert per detection
(src/api/routers/entries.py lines 202–215), with fresh ids. -/
def detRowsFrom (entry_id : String) (g : Nat) : List RawDetection → List DetectionRow
  | [] => []
  | d :: ds =>
      { id := mkId g
        road_crack_id := entry_id
        crack_type := d.label
        confidence := d.confidence
        x1 := d.x1, y1 := d.y1, x2 := d.x2, y2 := d.y2 } :: detRowsFrom entry_id (g + 1) ds

/-- Result of one reconciliation pass. -/
structure ReconcileOut where
  db : DB
  gen : Nat
  updated : Option EntryRow
  deriving DecidableEq, Repr

/-- The inline reconciliation step of `create_entry`
(src/api/routers/entries.py lines 180–226): decide the primary type,
update the entry row, and — only when the update returned a row — insert
one detection row per detection and then insert the summary row. All the
writes are plain inserts. -/
def reconcileDetection (db : DB) (entry_id : String) (detRes : DetectionResult) (g : Nat) :
    ReconcileOut :=
  let primary := primaryCrackType detRes
  let (db1, upd) := Database.update_entry db entry_id
    { type := primary, classified_image_url := detRes.classified_image_url }
  match upd with
  | none => ⟨db1, g, none⟩
  | some row =>
      let db2 := { db1 with
        crack_detections := db1.crack_detections ++ detRowsFrom entry_id g detRes.detections }
      let g2 := g + detRes.detections.length
      let db3 := { db2 with
        detection_summaries := db2.detection_summaries ++
          [⟨mkId g2, entry_id, detRes.total_cracks, detRes.crack_types⟩] }
      ⟨db3, g2 + 1, some row⟩

/-- The parsed state of the `coordinates` form field: either the JSON
parse raised, or it yielded this list. -/
inductive CoordsInput where
  | malformed
  | parsed (xs : List ℚ)
  deriving DecidableEq, Repr

/-- A create request (src/api/routers/entries.py lines 105–114), with the
authenticated user attached by the auth dependency. -/
structure CreateRequest where
  title : String
  description : String
  location : String
  coordinates : CoordsInput
  severity : String
  user : UserRec
  deriving DecidableEq, Repr

/-- The `detection_info` block of responses (entries.py lines 84–96 and
273–287). -/
structure DetectionInfo where
  total_cracks : Nat
  crack_types : List (String × TypeStat)
  status : String
  deriving DecidableEq, Repr

/-- The value of `format_entry_response` (src/api/utils.py lines 95–127);
total on well-shaped rows (the Python `None` arises only from missing
dict keys). -/
structure FormattedEntry where
  id : String
  title : String
  description : String
  location : String
  coordinates : List ℚ
  severity : String
  type : String
  image : String
  classified_image : Option String
  user_id : String
  user_name : String
  user_avatar : Option String
  deriving DecidableEq, Repr

/-- `format_entry_response` (src/api/utils.py lines 95–127). -/
def format_entry_response (e : EntryRow) (u : UserRec) : FormattedEntry :=
  { id := e.id
    title := e.title
    description := e.description
    location := e.location
    coordinates := e.coordinates
    severity := e.severity
    type := e.type
    image := e.image_url
    classified_image := e.classified_image_url
    user_id := u.id
    user_name := u.name
    user_avatar := u.avatar_url }

/-- HTTP-level outcome of the create endpoint. -/
inductive HttpReply where
  | ok (entry : FormattedEntry) (info : DetectionInfo) (detections : List RawDetection)
  | error (status : Nat) (msg : String)
  deriving DecidableEq, Repr

/-- Whether a reply is a success response. -/
def HttpReply.isOk : HttpReply → Bool
  | .ok _ _ _ => true
  | .error _ _ => false

namespace Router

/-- `create_entry` (src/api/routers/entries.py lines 105–291).
Order of effects, as in the source: severity check; image upload to S3;
coordinates JSON parse and length check (no bounds check); insert the
placeholder entry (`type = "unknown"`); run `classify_image` inline and
reconcile; enqueue the backup job; format the response with
`status = "completed"` (a detection result always exists, since
`classify_image` returns a value on every path). A length-2 check failure
raises `ValueError`, which the inner handler does not catch (it catches
only `json.JSONDecodeError`), so it surfaces as a 500 from the outer
handler. -/
def create_entry (st : SysState) (req : CreateRequest) (det : DetectorState) :
    SysState × HttpReply :=
  if ¬(req.severity = "minor" ∨ req.severity = "major") then
    (st, .error 400 "Severity must be minor or major")
  else
    let image_url := save_image_url req.user.id "original" st.gen
    let st1 : SysState := { st with s3 := st.s3 ++ [image_url], gen := st.gen + 1 }
    match req.coordinates with
    | .malformed => (st1, .error 400 "Invalid coordinates format")
    | .parsed xs =>
      if xs.length ≠ 2 then
        (st1, .error 500 "Coordinates must be a list of longitude and latitude")
      else
        let entry_id := mkId st1.gen
        let row : EntryRow :=
          { id := entry_id
            title := req.title
            description := req.description
            location := req.location
            coordinates := xs
            severity := req.severity
            type := "unknown"
            image_url := image_url
            classified_image_url := none
            user_id := req.user.id }
        let db1 := Database.create_entry st1.db row
        let g1 := st1.gen + 1
        let savedUrl := save_image_url req.user.id "classified" g1
        let detRes := classify_image det savedUrl
        let out := reconcileDetection db1 entry_id detRes (g1 + 1)
        let st2 : SysState :=
          { db := out.db
            s3 := st1.s3 ++ detRes.classified_image_url.toList
            queue := st1.queue ++ [⟨entry_id, image_url, req.user.id⟩]
            gen := out.gen }
        let new_entry := out.updated.getD row
        (st2, .ok (format_entry_response new_entry req.user)
          ⟨detRes.total_cracks, detRes.crack_types, "completed"⟩ detRes.detections)

/-- Outcome of the read-side merged view. -/
inductive GetEntryResult where
  | notFound
  | userNotFound
  | ok (entry : FormattedEntry) (info : DetectionInfo)
  deriving DecidableEq, Repr

/-- `get_entry` (src/api/routers/entries.py lines 57–103): 404 when the
entry is unknown; 404 "User not found" when `get_user` returns `None`
(a branch `get_user` can in fact never take); otherwise the formatted
entry with `detection_info.status = "completed"` when a summary row
exists and `"pending"` when none does. -/
def get_entry_view (db : DB) (oracle : String → Option UserRec) (entry_id : String) :
    GetEntryResult :=
  match Database.get_entry_by_id db entry_id with
  | none => .notFound
  | some e =>
    match get_user oracle e.user_id with
    | none => .userNotFound
    | some u =>
      match Database.get_detection_summary db entry_id with
      | some s => .ok (format_entry_response e u) ⟨s.total_cracks, s.crack_types, "completed"⟩
      | none => .ok (format_entry_response e u) ⟨0, [], "pending"⟩

end Router

/-- Number of detections carrying a given label. -/
def countLabel (ds : List RawDetection) (l : String) : Nat :=
  (ds.filter (fun d => d.label == l)).length

/-- The confidences of the detections carrying a given label, in order. -/
def confsOf (ds : List RawDetection) (l : String) : List ℚ :=
  (ds.filter (fun d => d.label == l)).map (fun d => d.confidence)

/-- A summary value abstracted from its row identity. -/
structure SummaryVal where
  total_cracks : Nat
  crack_types : List (String × TypeStat)
  deriving DecidableEq, Repr

/-- Forget a summary row's identity columns. -/
def summaryValOf (s : SummaryRow) : SummaryVal := ⟨s.total_cracks, s.crack_types⟩

/-- Re-run the reducer over stored detection rows (the recoverability
reading of the spec: the summary should equal this). -/
def reduceRows (rows : List DetectionRow) : SummaryVal :=
  { total_cracks := rows.length
    crack_types := formatCrackTypes
      (rows.foldl (fun acc r => addConf acc r.crack_type r.confidence) []) }

/-- The summary rows stored for one entry. -/
def summariesFor (db : DB) (entry_id : String) : List SummaryRow :=
  db.detection_summaries.filter (fun s => s.road_crack_id == entry_id)

/-- Extend an optional group accumulator by one confidence — the effect
one `addConf` call has at the touched key (characterisation helper). -/
def pushConf : Option GroupAcc → ℚ → Option GroupAcc
  | none, c => some ⟨1, [c]⟩
  | some g, c => some ⟨g.count + 1, g.confidences ++ [c]⟩

/-- Iterated `pushConf` (characterisation helper for the grouping fold). -/
def extendGroup : Option GroupAcc → List ℚ → Option GroupAcc
  | o, [] => o
  | o, c :: cs => extendGroup (pushConf o c) cs

/-- The keys of an association list, in order. -/
def keysOf {α : Type} (l : List (String × α)) : List String := l.map Prod.fst

/-- Scenario A of the spec: two "alligator" detections (confidence 0.80
and 0.90) and one "pothole" detection (confidence 0.70). -/
def scenarioA : List RawDetection :=
  [⟨0, 0, 10, 10, 4/5, 0, "alligator"⟩,
   ⟨5, 5, 20, 20, 9/10, 0, "alligator"⟩,
   ⟨30, 30, 40, 40, 7/10, 1, "pothole"⟩]

/-- A single detection with confidence exactly 1/2 (C4 fixture). -/
def dsHalf : List RawDetection := [⟨0, 0, 10, 10, 1/2, 0, "alligator"⟩]

/-- The detection record inside `fallbackResult`. -/
def fallbackDetection : RawDetection := ⟨100, 100, 200, 200, 17/20, 0, "alligator"⟩

/-- A persisted placeholder entry "e1" (fixture). -/
def entryE1 : EntryRow :=
  ⟨"e1", "title", "desc", "loc", [120, 10], "minor", "unknown", "img-url", none, "u1"⟩

/-- A database holding just the placeholder entry "e1" (fixture). -/
def dbE1 : DB := ⟨[entryE1], [], []⟩

/-- A detection result with one alligator detection at confidence 0.85,
as the synchronous path would obtain it (fixture for re-run scenarios). -/
def detResA : DetectionResult :=
  classify_image (.ready [⟨0, 0, 10, 10, 17/20, 0, "alligator"⟩]) "classified-url"

/-- Reconciling "e1" once with `detResA` (fixture). -/
def runOnce : ReconcileOut := reconcileDetection dbE1 "e1" detResA 0

/-- Reconciling "e1" a second time with the same detection result, as the
async backup path re-processing the same image would (fixture). -/
def runTwice : ReconcileOut := reconcileDetection runOnce.db "e1" detResA runOnce.gen

/-- The empty system state (fixture). -/
def emptyState : SysState := ⟨⟨[], [], []⟩, [], [], 0⟩

/-- A create request whose longitude 200 is out of range (fixture for the
coordinate-validation claim). -/
def reqC2 : CreateRequest :=
  ⟨"Pothole on 5th", "big pothole", "5th Ave", .parsed [200, 10], "minor",
   ⟨"u1", "User One", "u1@dalan.app", none⟩⟩

/-- A create request with in-range coordinates (fixture for the
detector-failure fallback claim). -/
def reqC7 : CreateRequest :=
  ⟨"Crack", "crack desc", "Main St", .parsed [120, 10], "major",
   ⟨"u2", "User Two", "u2@dalan.app", none⟩⟩

/-- The placeholder Entry row the create path inserts, given the parsed
coordinates and the id counter at request start (characterisation
helper). -/
@[reducible] def createdRow (req : CreateRequest) (a b : ℚ) (g : Nat) : EntryRow :=
  { id := mkId (g + 1)
    title := req.title
    description := req.description
    location := req.location
    coordinates := [a, b]
    severity := req.severity
    type := "unknown"
    image_url := save_image_url req.user.id "original" g
    classified_image_url := none
    user_id := req.user.id }

/-- The entry-update payload of the fallback reconciliation
(characterisation helper). -/
@[reducible] def fallbackUpd : EntryUpdate :=
  ⟨primaryCrackType fallbackResult, fallbackResult.classified_image_url⟩

/-- The system state `create_entry` leaves behind when the detector is
unavailable (characterisation helper; validated against the code by the
fallback claim's proof). -/
@[reducible] def createdStateFallback (st : SysState) (req : CreateRequest) (a b : ℚ) :
    SysState :=
  { db :=
      { road_cracks :=
          (st.db.road_cracks ++ [createdRow req a b st.gen]).map
            (fun x => if x.id == mkId (st.gen + 1) then applyUpdate fallbackUpd x else x),
        crack_detections :=
          st.db.crack_detections ++
            detRowsFrom (mkId (st.gen + 1)) (st.gen + 1 + 1 + 1) fallbackResult.detections,
        detection_summaries :=
          st.db.detection_summaries ++
            [⟨mkId (st.gen + 1 + 1 + 1 + fallbackResult.detections.length),
              mkId (st.gen + 1), fallbackResult.total_cracks, fallbackResult.crack_types⟩] },
    s3 :=
      (st.s3 ++ [save_image_url req.user.id "original" st.gen]) ++
        fallbackResult.classified_image_url.toList,
    queue :=
      st.queue ++
        [⟨mkId (st.gen + 1), save_image_url req.user.id "original" st.gen, req.user.id⟩],
    gen := st.gen + 1 + 1 + 1 + fallbackResult.detections.length + 1 }

/-- The reply `create_entry` returns when the detector is unavailable
(characterisation helper). -/
@[reducible] def createdReplyFallback (st : SysState) (req : CreateRequest) (a b : ℚ) :
    HttpReply :=
  .ok (format_entry_response (applyUpdate fallbackUpd (createdRow req a b st.gen)) req.user)
    ⟨fallbackResult.total_cracks, fallbackResult.crack_types, "completed"⟩
    fallbackResult.detections

/-! ### Characterisation of the grouping pass -/

theorem lookupKey_addConf (acc : List (String × GroupAcc)) (lab : String) (c : ℚ) (k : String) :
    lookupKey (addConf acc lab c) k =
      if k = lab then pushConf (lookupKey acc k) c else lookupKey acc k := by
  induction acc with
  | nil =>
      by_cases h : k = lab
      · subst h; simp [addConf, lookupKey, pushConf]
      · simp [addConf, lookupKey, pushConf, h, Ne.symm h]
  | cons p rest ih =>
      obtain ⟨l, g⟩ := p
      by_cases hl : l = lab
      · subst hl
        by_cases hk : k = l
        · subst hk; simp [addConf, lookupKey, pushConf]
        · simp [addConf, lookupKey, hk, Ne.symm hk]
      · by_cases hk : l = k
        · subst hk
          simp [addConf, lookupKey, hl, Ne.symm hl]
        · simp [addConf, lookupKey, hl, hk, ih]

theorem extendGroup_some (cs : List ℚ) :
    ∀ g : GroupAcc, extendGroup (some g) cs = some ⟨g.count + cs.length, g.confidences ++ cs⟩ := by
  induction cs with
  | nil => intro g; simp [extendGroup]
  | cons c cs ih =>
      intro g
      rw [extendGroup, pushConf, ih]
      simp [Nat.add_comm, Nat.add_assoc, Nat.add_left_comm]

theorem extendGroup_none (cs : List ℚ) :
    extendGroup none cs = if cs = [] then none else some ⟨cs.length, cs⟩ := by
  cases cs with
  | nil => simp [extendGroup]
  | cons c cs =>
      rw [extendGroup, pushConf, extendGroup_some]
      simp [Nat.add_comm]

theorem lookupKey_groupFold (ds : List RawDetection) :
    ∀ (acc : List (String × GroupAcc)) (k : String),
      lookupKey (ds.foldl (fun acc d => addConf acc d.label d.confidence) acc) k =
        extendGroup (lookupKey acc k)
          ((ds.filter (fun d => d.label == k)).map (fun d => d.confidence)) := by
  induction ds with
  | nil => intro acc k; simp [extendGroup]
  | cons d ds ih =>
      intro acc k
      rw [List.foldl_cons, ih, lookupKey_addConf]
      by_cases h : k = d.label
      · have hb : (d.label == k) = true := by simp [h]
        rw [if_pos h, List.filter_cons, if_pos hb, List.map_cons, extendGroup]
      · have hb : (d.label == k) = false := by simp [Ne.symm h]
        rw [if_neg h, List.filter_cons, hb]
        simp

theorem lookupKey_groupConfs (ds : List RawDetection) (k : String) :
    lookupKey (groupConfs ds) k =
      if confsOf ds k = [] then none
      else some ⟨(confsOf ds k).length, confsOf ds k⟩ := by
  have h := lookupKey_groupFold ds [] k
  rw [groupConfs, h]
  show extendGroup none (confsOf ds k) = _
  exact extendGroup_none _

theorem lookupKey_formatCrackTypes (cts : List (String × GroupAcc)) (k : String) :
    lookupKey (formatCrackTypes cts) k = (lookupKey cts k).map formatStat := by
  induction cts with
  | nil => simp [formatCrackTypes, lookupKey]
  | cons p rest ih =>
      obtain ⟨l, g⟩ := p
      show lookupKey ((l, formatStat g) :: formatCrackTypes rest) k = _
      by_cases h : l = k
      · subst h; simp [lookupKey]
      · simp [lookupKey, h, ih]

theorem confsOf_length (ds : List RawDetection) (k : String) :
    (confsOf ds k).length = countLabel ds k := by
  simp [confsOf, countLabel]

/-- Closed form of the stat stored for label `k` by the success branch of
`classify_image`: present exactly when `k` occurs in the detections, with
`count` the group size and `avg_confidence` the group mean as a
percentage, rounded to one decimal. -/
theorem lookupKey_classify_crack_types (ds : List RawDetection) (u : String) (k : String) :
    lookupKey (classifyImageSuccess ds u).crack_types k =
      if confsOf ds k = [] then none
      else some ⟨(confsOf ds k).length,
                 pyRound1 ((confsOf ds k).sum / ((confsOf ds k).length : ℚ) * 100)⟩ := by
  show lookupKey (formatCrackTypes (groupConfs ds)) k = _
  rw [lookupKey_formatCrackTypes, lookupKey_groupConfs]
  by_cases h : confsOf ds k = []
  · simp [h]
  · simp [h, formatStat]

/-! ### The primary-class decision -/

theorem maxByCountGo_spec (rest : List (String × TypeStat)) :
    ∀ (best : String) (bc : Nat),
      (maxByCountGo best bc rest = best ∧ ∀ p ∈ rest, p.2.count ≤ bc) ∨
      (∃ s, (maxByCountGo best bc rest, s) ∈ rest ∧ bc ≤ s.count ∧
        ∀ p ∈ rest, p.2.count ≤ s.count) := by
  induction rest with
  | nil => intro best bc; left; exact ⟨rfl, by simp⟩
  | cons q rest ih =>
      intro best bc
      obtain ⟨l, s⟩ := q
      by_cases h : bc < s.count
      · rw [show maxByCountGo best bc ((l, s) :: rest) = maxByCountGo l s.count rest from by
          simp [maxByCountGo, h]]
        rcases ih l s.count with ⟨heq, hall⟩ | ⟨s', hmem, hle, hall⟩
        · right
          refine ⟨s, ?_, Nat.le_of_lt h, ?_⟩
          · rw [heq]; exact List.mem_cons_self _ _
          · intro p hp
            rcases List.mem_cons.mp hp with hp | hp
            · subst hp; exact Nat.le_refl _
            · exact hall p hp
        · right
          refine ⟨s', List.mem_cons_of_mem _ hmem, Nat.le_trans (Nat.le_of_lt h) hle, ?_⟩
          intro p hp
          rcases List.mem_cons.mp hp with hp | hp
          · subst hp; exact hle
          · exact hall p hp
      · have hs : s.count ≤ bc := Nat.le_of_not_lt h
        rw [show maxByCountGo best bc ((l, s) :: rest) = maxByCountGo best bc rest from by
          simp [maxByCountGo, h]]
        rcases ih best bc with ⟨heq, hall⟩ | ⟨s', hmem, hle, hall⟩
        · left
          refine ⟨heq, ?_⟩
          intro p hp
          rcases List.mem_cons.mp hp with hp | hp
          · subst hp; exact hs
          · exact hall p hp
        · right
          refine ⟨s', List.mem_cons_of_mem _ hmem, hle, ?_⟩
          intro p hp
          rcases List.mem_cons.mp hp with hp | hp
          · subst hp; exact Nat.le_trans hs hle
          · exact hall p hp

/-- Python's `max(keys, key=count)` over a nonempty dict returns a key
whose count bounds every entry's count. -/
theorem maxByCount_spec (l0 : String) (s0 : TypeStat) (rest : List (String × TypeStat)) :
    ∃ p s, maxByCount ((l0, s0) :: rest) = some p ∧ (p, s) ∈ (l0, s0) :: rest ∧
      ∀ q ∈ (l0, s0) :: rest, q.2.count ≤ s.count := by
  rcases maxByCountGo_spec rest l0 s0.count with ⟨heq, hall⟩ | ⟨s', hmem, hle, hall⟩
  · refine ⟨l0, s0, ?_, ?_, ?_⟩
    · simp [maxByCount, heq]
    · exact List.mem_cons_self _ _
    · intro q hq
      rcases List.mem_cons.mp hq with hq | hq
      · subst hq; exact Nat.le_refl _
      · exact hall q hq
  · refine ⟨maxByCountGo l0 s0.count rest, s', ?_, List.mem_cons_of_mem _ hmem, ?_⟩
    · simp [maxByCount]
    · intro q hq
      rcases List.mem_cons.mp hq with hq | hq
      · subst hq; exact hle
      · exact hall q hq

/-! ### Key uniqueness of the grouping -/

theorem keysOf_cons {α : Type} (p : String × α) (l : List (String × α)) :
    keysOf (p :: l) = p.1 :: keysOf l := rfl

theorem keysOf_addConf_subset (acc : List (String × GroupAcc)) (lab : String) (c : ℚ) :
    ∀ x ∈ keysOf (addConf acc lab c), x ∈ keysOf acc ∨ x = lab := by
  induction acc with
  | nil => intro x hx; right; simpa [addConf, keysOf] using hx
  | cons p rest ih =>
      obtain ⟨l, g⟩ := p
      intro x hx
      by_cases hl : l = lab
      · subst hl
        rw [show addConf ((l, g) :: rest) l c =
              (l, ⟨g.count + 1, g.confidences ++ [c]⟩) :: rest from by simp [addConf]] at hx
        rw [keysOf_cons] at hx
        left
        simpa [keysOf_cons] using hx
      · rw [show addConf ((l, g) :: rest) lab c = (l, g) :: addConf rest lab c from by
            simp [addConf, hl]] at hx
        rw [keysOf_cons] at hx
        rcases List.mem_cons.mp hx with hx | hx
        · left; rw [keysOf_cons]; exact List.mem_cons.mpr (Or.inl hx)
        · rcases ih x hx with h | h
          · left; rw [keysOf_cons]; exact List.mem_cons.mpr (Or.inr h)
          · right; exact h

theorem keysOf_addConf_nodup (acc : List (String × GroupAcc)) (lab : String) (c : ℚ)
    (h : (keysOf acc).Nodup) : (keysOf (addConf acc lab c)).Nodup := by
  induction acc with
  | nil => simp [addConf, keysOf]
  | cons p rest ih =>
      obtain ⟨l, g⟩ := p
      rw [keysOf_cons, List.nodup_cons] at h
      by_cases hl : l = lab
      · subst hl
        rw [show addConf ((l, g) :: rest) l c =
              (l, ⟨g.count + 1, g.confidences ++ [c]⟩) :: rest from by simp [addConf]]
        rw [keysOf_cons, List.nodup_cons]
        exact h
      · rw [show addConf ((l, g) :: rest) lab c = (l, g) :: addConf rest lab c from by
            simp [addConf, hl]]
        rw [keysOf_cons, List.nodup_cons]
        refine ⟨?_, ih h.2⟩
        intro hmem
        rcases keysOf_addConf_subset rest lab c l hmem with hc | hc
        · exact h.1 hc
        · exact hl hc

theorem keysOf_groupFold_nodup (ds : List RawDetection) :
    ∀ acc : List (String × GroupAcc), (keysOf acc).Nodup →
      (keysOf (ds.foldl (fun acc d => addConf acc d.label d.confidence) acc)).Nodup := by
  induction ds with
  | nil => intro acc h; simpa using h
  | cons d ds ih =>
      intro acc h
      rw [List.foldl_cons]
      exact ih _ (keysOf_addConf_nodup acc d.label d.confidence h)

theorem keysOf_groupConfs_nodup (ds : List RawDetection) : (keysOf (groupConfs ds)).Nodup :=
  keysOf_groupFold_nodup ds [] (by simp [keysOf])

theorem keysOf_formatCrackTypes (cts : List (String × GroupAcc)) :
    keysOf (formatCrackTypes cts) = keysOf cts := by
  simp [keysOf, formatCrackTypes]

theorem lookupKey_of_mem_nodup {α : Type} (l : List (String × α)) (k : String) (v : α)
    (hnd : (keysOf l).Nodup) (hmem : (k, v) ∈ l) : lookupKey l k = some v := by
  induction l with
  | nil => cases hmem
  | cons p rest ih =>
      obtain ⟨l', v'⟩ := p
      rw [keysOf_cons, List.nodup_cons] at hnd
      rcases List.mem_cons.mp hmem with hp | hp
      · injection hp with h1 h2
        subst h1; subst h2
        simp [lookupKey]
      · by_cases h : l' = k
        · subst h
          exact absurd (by simpa [keysOf] using List.mem_map_of_mem Prod.fst hp) hnd.1
        · simp only [lookupKey, if_neg h]
          exact ih hnd.2 hp

theorem mem_of_lookupKey {α : Type} (l : List (String × α)) (k : String) (v : α)
    (h : lookupKey l k = some v) : (k, v) ∈ l := by
  induction l with
  | nil => simp [lookupKey] at h
  | cons p rest ih =>
      obtain ⟨l', v'⟩ := p
      by_cases hk : l' = k
      · subst hk
        have hv : v' = v := by simpa [lookupKey] using h
        subst hv
        exact List.mem_cons_self _ _
      · simp only [lookupKey, if_neg hk] at h
        exact List.mem_cons_of_mem _ (ih h)

/-! ### List and update helpers -/

theorem filter_beq_nil {α : Type} (l : List α) (f : α → String) (eid : String)
    (h : ∀ r ∈ l, f r ≠ eid) : l.filter (fun r => f r == eid) = [] := by
  induction l with
  | nil => rfl
  | cons a l ih =>
      have hb : (f a == eid) = false := by simpa using h a (List.mem_cons_self _ _)
      rw [List.filter_cons, hb]
      simp only [Bool.false_eq_true, if_false]
      exact ih (fun r hr => h r (List.mem_cons_of_mem _ hr))

theorem find?_beq_none {α : Type} (l : List α) (f : α → String) (eid : String)
    (h : ∀ r ∈ l, f r ≠ eid) : l.find? (fun r => f r == eid) = none := by
  rw [List.find?_eq_none]
  intro x hx
  simpa using h x hx

theorem find?_append_of_none {α : Type} (l₁ l₂ : List α) (p : α → Bool)
    (h : l₁.find? p = none) : (l₁ ++ l₂).find? p = l₂.find? p := by
  induction l₁ with
  | nil => rfl
  | cons a l ih =>
      cases hb : p a with
      | true =>
          rw [List.find?_cons_of_pos _ hb] at h
          cases h
      | false =>
          rw [List.find?_cons_of_neg _ (by simp [hb])] at h
          rw [List.cons_append, List.find?_cons_of_neg _ (by simp [hb])]
          exact ih h

theorem applyUpdate_id (u : EntryUpdate) (r : EntryRow) : (applyUpdate u r).id = r.id := rfl

theorem applyUpdate_applyUpdate (u : EntryUpdate) (r : EntryRow) :
    applyUpdate u (applyUpdate u r) = applyUpdate u r := by
  cases h : u.classified_image_url <;> simp [applyUpdate, h]

theorem updFun_id (u : EntryUpdate) (eid : String) (r : EntryRow) :
    ((if r.id == eid then applyUpdate u r else r) : EntryRow).id = r.id := by
  cases hb : (r.id == eid) <;> simp [hb, applyUpdate_id]

theorem updFun_idem (u : EntryUpdate) (eid : String) (r : EntryRow) :
    (fun x : EntryRow => if x.id == eid then applyUpdate u x else x)
      ((fun x : EntryRow => if x.id == eid then applyUpdate u x else x) r) =
    (fun x : EntryRow => if x.id == eid then applyUpdate u x else x) r := by
  cases hb : (r.id == eid) with
  | false => simp [hb]
  | true => simp [hb, applyUpdate_id, applyUpdate_applyUpdate]

theorem filter_map_updFun (l : List EntryRow) (eid : String) (u : EntryUpdate) :
    (l.map (fun x => if x.id == eid then applyUpdate u x else x)).filter
        (fun r => r.id == eid) =
      (l.filter (fun r => r.id == eid)).map
        (fun x => if x.id == eid then applyUpdate u x else x) := by
  induction l with
  | nil => rfl
  | cons r l ih =>
      cases hb : (r.id == eid) with
      | false =>
          have hp : ¬r.id = eid := by simpa using hb
          simpa [List.filter_cons, updFun_id, applyUpdate_id, hb, hp] using ih
      | true =>
          have hp : r.id = eid := by simpa using hb
          simpa [List.filter_cons, updFun_id, applyUpdate_id, hp] using ih

/-! ### Characterisation of one reconciliation pass -/

theorem update_entry_of_filter_cons (db : DB) (eid : String) (u : EntryUpdate)
    (r : EntryRow) (rest : List EntryRow)
    (h : db.road_cracks.filter (fun x => x.id == eid) = r :: rest) :
    Database.update_entry db eid u =
      ({ db with road_cracks :=
          db.road_cracks.map (fun x => if x.id == eid then applyUpdate u x else x) },
       some (applyUpdate u r)) := by
  simp [Database.update_entry, h]

theorem reconcileDetection_of_filter_cons (db : DB) (eid : String)
    (detRes : DetectionResult) (g : Nat) (r : EntryRow) (rest : List EntryRow)
    (h : db.road_cracks.filter (fun x => x.id == eid) = r :: rest) :
    reconcileDetection db eid detRes g =
      ⟨{ road_cracks := db.road_cracks.map (fun x =>
            if x.id == eid then
              applyUpdate ⟨primaryCrackType detRes, detRes.classified_image_url⟩ x
            else x)
         crack_detections := db.crack_detections ++ detRowsFrom eid g detRes.detections
         detection_summaries := db.detection_summaries ++
           [⟨mkId (g + detRes.detections.length), eid, detRes.total_cracks,
             detRes.crack_types⟩] },
       g + detRes.detections.length + 1,
       some (applyUpdate ⟨primaryCrackType detRes, detRes.classified_image_url⟩ r)⟩ := by
  rw [reconcileDetection, update_entry_of_filter_cons db eid _ r rest h]

theorem detRowsFrom_length (eid : String) (ds : List RawDetection) :
    ∀ g, (detRowsFrom eid g ds).length = ds.length := by
  induction ds with
  | nil => intro g; rfl
  | cons d ds ih => intro g; simp [detRowsFrom, ih]

theorem detRowsFrom_filter (eid : String) (ds : List RawDetection) :
    ∀ g, (detRowsFrom eid g ds).filter (fun r => r.road_crack_id == eid) =
      detRowsFrom eid g ds := by
  induction ds with
  | nil => intro g; rfl
  | cons d ds ih => intro g; simp [detRowsFrom, List.filter_cons, ih]

theorem detRowsFrom_foldGroup (eid : String) (ds : List RawDetection) :
    ∀ (g : Nat) (acc : List (String × GroupAcc)),
      (detRowsFrom eid g ds).foldl (fun acc r => addConf acc r.crack_type r.confidence) acc =
        ds.foldl (fun acc d => addConf acc d.label d.confidence) acc := by
  induction ds with
  | nil => intro g acc; rfl
  | cons d ds ih =>
      intro g acc
      rw [detRowsFrom, List.foldl_cons, List.foldl_cons]
      exact ih _ _

/-- `classify_image` always returns a result whose `total_cracks` is the
number of detections and whose `crack_types` is the formatted grouping of
those detections — on the success path by construction, and the fallback
value happens to satisfy the same relation. -/
theorem classify_image_consistent (det : DetectorState) (u : String) :
    (classify_image det u).total_cracks = (classify_image det u).detections.length ∧
    (classify_image det u).crack_types =
      formatCrackTypes (groupConfs (classify_image det u).detections) := by
  cases det with
  | ready ds => exact ⟨rfl, rfl⟩
  | modelUnavailable =>
      refine ⟨rfl, ?_⟩
      show fallbackResult.crack_types = formatCrackTypes (groupConfs fallbackResult.detections)
      norm_num [fallbackResult, groupConfs, addConf, formatCrackTypes, formatStat,
        pyRound1, roundHalfEven, round_eq, List.foldl_cons, List.foldl_nil]
  | inferenceError =>
      refine ⟨rfl, ?_⟩
      show fallbackResult.crack_types = formatCrackTypes (groupConfs fallbackResult.detections)
      norm_num [fallbackResult, groupConfs, addConf, formatCrackTypes, formatStat,
        pyRound1, roundHalfEven, round_eq, List.foldl_cons, List.foldl_nil]

/-- Every branch of `get_user` returns a record. -/
theorem get_user_isSome (oracle : String → Option UserRec) (uid : String) :
    ∃ u, get_user oracle uid = some u := by
  cases h : oracle uid with
  | some u => exact ⟨u, by simp [get_user, h]⟩
  | none =>
      by_cases hm : uid = mattId
      · subst hm
        exact ⟨⟨mattId, "Matthew Enarle", "enarlem10@gmail.com", none⟩,
          by simp [get_user, h]⟩
      · exact ⟨communityUser uid, by simp [get_user, h, hm]⟩

/-! ### Claim C3 -/

/-- C3: the synchronous path enqueues jobs with keys `entry_id`,
`image_url`, `user_id`, while the SQS detection consumer extracts
`road_crack_id` and `image_data`; hence every job the synchronous path
enqueues is rejected by the consumer with a 400 "Missing required
fields" error — it never fetches the image nor reaches the
reconciliation path. -/
theorem C3_sync_job_rejected_by_consumer (j : QueueJob) :
    detection_process_guard (jobMessageBody j) =
      .errorResponse 400 "Missing required fields in message" := by
  rfl

/-! ### Claim C9 -/

/-- C9 counterexample: on unrecoverable failure (`modelUnavailable`),
`classify_image` does not signal a `DetectionUnavailable` error — it
returns the plain fallback result, a success-shaped value reporting one
"alligator" crack, whose `total_cracks`, `crack_types` and `detections`
coincide with those of a genuine one-detection success, so callers cannot
distinguish "could not look" from a real finding. -/
theorem C9_failure_looks_like_success :
    classify_image .modelUnavailable "u" = fallbackResult ∧
    (classify_image .modelUnavailable "u").total_cracks =
      (classify_image (.ready [fallbackDetection]) "u2").total_cracks ∧
    (classify_image .modelUnavailable "u").crack_types =
      (classify_image (.ready [fallbackDetection]) "u2").crack_types ∧
    (classify_image .modelUnavailable "u").detections =
      (classify_image (.ready [fallbackDetection]) "u2").detections ∧
    (classify_image .modelUnavailable "u").total_cracks ≠ 0 := by
  refine ⟨rfl, rfl, ?_, rfl, by decide⟩
  show fallbackResult.crack_types = (classifyImageSuccess [fallbackDetection] "u2").crack_types
  show fallbackResult.crack_types =
    formatCrackTypes (groupConfs [fallbackDetection])
  norm_num [fallbackResult, fallbackDetection, groupConfs, addConf, formatCrackTypes,
    formatStat, pyRound1, roundHalfEven, round_eq, List.foldl_cons, List.foldl_nil]

/-- C9 amended: `classify_image` never throws on zero detections — it
returns an empty result — and on unrecoverable failure it returns the
fixed fallback success-shaped result instead of a distinct error
signal. -/
theorem C9_empty_result_and_fallback (u : String) (det : DetectorState) :
    (classify_image (.ready []) u).total_cracks = 0 ∧
    (classify_image (.ready []) u).crack_types = [] ∧
    (classify_image (.ready []) u).detections = [] ∧
    (det = .modelUnavailable ∨ det = .inferenceError →
      classify_image det u = fallbackResult) := by
  refine ⟨rfl, rfl, rfl, ?_⟩
  rintro (rfl | rfl) <;> rfl

/-- C9 witness: the amended statement at concrete inputs. -/
theorem C9_empty_result_and_fallback_witness :
    (classify_image (.ready []) "u").total_cracks = 0 ∧
    classify_image .modelUnavailable "u" = fallbackResult :=
  ⟨(C9_empty_result_and_fallback "u" .modelUnavailable).1,
   (C9_empty_result_and_fallback "u" .modelUnavailable).2.2.2 (Or.inl rfl)⟩

/-! ### Claim C10 -/

/-- C10 counterexample: for the hardcoded id, a failed auth-provider
lookup yields the specific "Matthew Enarle" mock record, not the generic
"Community User" placeholder the claim promises for every failed
lookup. -/
theorem C10_hardcoded_user_not_generic :
    get_user (fun _ => none) mattId =
      some ⟨mattId, "Matthew Enarle", "enarlem10@gmail.com", none⟩ ∧
    ("Matthew Enarle" : String) ≠ "Community User" := by
  constructor
  · simp [get_user]
  · decide

/-- C10 amended: `get_user` is total — it returns a record for every id
(the hardcoded mock for the one known id, otherwise the generic
"Community User" placeholder with a synthesized email), never `None`, so
the merged view's "User not found" branch is unreachable. -/
theorem C10_get_user_total (oracle : String → Option UserRec) (uid : String)
    (db : DB) (eid : String) :
    (get_user oracle uid).isSome = true ∧
    (oracle uid = none → uid ≠ mattId →
      get_user oracle uid = some (communityUser uid)) ∧
    Router.get_entry_view db oracle eid ≠ Router.GetEntryResult.userNotFound := by
  refine ⟨?_, ?_, ?_⟩
  · obtain ⟨u, hu⟩ := get_user_isSome oracle uid
    simp [hu]
  · intro h hm
    simp [get_user, h, hm]
  · cases he : Database.get_entry_by_id db eid with
    | none => simp [Router.get_entry_view, he]
    | some e =>
        obtain ⟨u, hu⟩ := get_user_isSome oracle e.user_id
        cases hs : Database.get_detection_summary db eid with
        | none => simp [Router.get_entry_view, he, hu, hs]
        | some s => simp [Router.get_entry_view, he, hu, hs]

/-- C10 witness: the amended statement at concrete inputs. -/
theorem C10_get_user_total_witness :
    (get_user (fun _ => none) "someone").isSome = true ∧
    get_user (fun _ => none) "someone" = some (communityUser "someone") := by
  have h := C10_get_user_total (fun _ => none) "someone" dbE1 "e1"
  exact ⟨h.1, h.2.1 rfl (by decide)⟩

/-! ### Claim C4 -/

/-- C4 counterexample: for a single detection with confidence 1/2, the
reducer stores `avg_confidence = 50` (a percentage, rounded inside the
reducer), not the exact arithmetic mean 1/2 of the group's confidences. -/
theorem C4_avg_confidence_not_exact_mean :
    lookupKey (classify_image (.ready dsHalf) "u").crack_types "alligator" =
      some ⟨1, 50⟩ ∧
    (50 : ℚ) ≠ 1/2 := by
  constructor
  · rw [show (classify_image (.ready dsHalf) "u").crack_types =
        (classifyImageSuccess dsHalf "u").crack_types from rfl]
    rw [lookupKey_classify_crack_types]
    have h : confsOf dsHalf "alligator" = [1/2] := by
      simp [confsOf, dsHalf, List.filter_cons]
    rw [h]
    norm_num [pyRound1, roundHalfEven, round_eq]
  · norm_num

/-- C4 amended: for every detection list, `total_cracks` equals the list
length and, for every label, the stored stat has `count` equal to the
number of detections with that label and `avg_confidence` equal to the
group's arithmetic mean converted to a percentage and rounded to one
decimal place inside the reducer (not stored at full precision). -/
theorem C4_reducer_aggregation (ds : List RawDetection) (u : String) (l : String) :
    (classify_image (.ready ds) u).total_cracks = ds.length ∧
    lookupKey (classify_image (.ready ds) u).crack_types l =
      (if confsOf ds l = [] then none
       else some ⟨countLabel ds l,
         pyRound1 ((confsOf ds l).sum / (countLabel ds l : ℚ) * 100)⟩) := by
  refine ⟨rfl, ?_⟩
  rw [show (classify_image (.ready ds) u).crack_types =
      (classifyImageSuccess ds u).crack_types from rfl]
  rw [lookupKey_classify_crack_types, confsOf_length]

/-! ### Claim C5 -/

/-- C5: on an empty detection list the primary type is the sentinel
"no_cracks" (never "unknown") with an empty summary, and on a non-empty
list the primary type is a label attaining the maximal per-label count. -/
theorem C5_primary_class_decision (ds : List RawDetection) (u : String) :
    (ds = [] →
      primaryCrackType (classify_image (.ready ds) u) = "no_cracks" ∧
      primaryCrackType (classify_image (.ready ds) u) ≠ "unknown" ∧
      (classify_image (.ready ds) u).total_cracks = 0 ∧
      (classify_image (.ready ds) u).crack_types = []) ∧
    (ds ≠ [] →
      0 < countLabel ds (primaryCrackType (classify_image (.ready ds) u)) ∧
      ∀ l, countLabel ds l ≤
        countLabel ds (primaryCrackType (classify_image (.ready ds) u))) := by
  constructor
  · rintro rfl
    refine ⟨rfl, ?_, rfl, rfl⟩
    show ("no_cracks" : String) ≠ "unknown"
    decide
  · intro hne
    have hkey : ∀ l,
        lookupKey (classifyImageSuccess ds u).crack_types l =
          if confsOf ds l = [] then none
          else some ⟨(confsOf ds l).length,
            pyRound1 ((confsOf ds l).sum / ((confsOf ds l).length : ℚ) * 100)⟩ :=
      fun l => lookupKey_classify_crack_types ds u l
    have hnodup : (keysOf (classifyImageSuccess ds u).crack_types).Nodup := by
      show (keysOf (formatCrackTypes (groupConfs ds))).Nodup
      rw [keysOf_formatCrackTypes]
      exact keysOf_groupConfs_nodup ds
    obtain ⟨d, ds', rfl⟩ := List.exists_cons_of_ne_nil hne
    have hpos : 0 < (classifyImageSuccess (d :: ds') u).total_cracks := by
      simp [classifyImageSuccess]
    have hdconf : confsOf (d :: ds') d.label ≠ [] := by
      simp [confsOf, List.filter_cons]
    have hlook := hkey d.label
    rw [if_neg hdconf] at hlook
    have hcts : (classifyImageSuccess (d :: ds') u).crack_types ≠ [] := by
      intro hc
      rw [hc] at hlook
      cases hlook
    cases hcase : (classifyImageSuccess (d :: ds') u).crack_types with
    | nil => exact absurd hcase hcts
    | cons p tl =>
        obtain ⟨l0, s0⟩ := p
        obtain ⟨pk, s, hmax, hmem, hall⟩ := maxByCount_spec l0 s0 tl
        have hprim : primaryCrackType (classify_image (.ready (d :: ds')) u) = pk := by
          show primaryCrackType (classifyImageSuccess (d :: ds') u) = pk
          rw [primaryCrackType, if_pos hpos, hcase, hmax]
        rw [hprim]
        rw [← hcase] at hmem hall
        have hlookpk : lookupKey (classifyImageSuccess (d :: ds') u).crack_types pk =
            some s := lookupKey_of_mem_nodup _ _ _ hnodup hmem
        have hchar := hkey pk
        rw [hlookpk] at hchar
        have hconfpk : confsOf (d :: ds') pk ≠ [] := by
          intro hc
          rw [if_pos hc] at hchar
          cases hchar
        rw [if_neg hconfpk] at hchar
        have hs : s = ⟨(confsOf (d :: ds') pk).length,
            pyRound1 ((confsOf (d :: ds') pk).sum /
              ((confsOf (d :: ds') pk).length : ℚ) * 100)⟩ := by
          exact Option.some.inj hchar
        have hcount : s.count = countLabel (d :: ds') pk := by
          rw [hs, ← confsOf_length]
        constructor
        · rw [← hcount]
          rw [hs]
          show 0 < (confsOf (d :: ds') pk).length
          exact List.length_pos.mpr hconfpk
        · intro l
          cases hl : lookupKey (classifyImageSuccess (d :: ds') u).crack_types l with
          | none =>
              have hc := hkey l
              rw [hl] at hc
              have : confsOf (d :: ds') l = [] := by
                by_contra hcc
                rw [if_neg hcc] at hc
                cases hc
              have hz : countLabel (d :: ds') l = 0 := by
                rw [← confsOf_length, this]
                rfl
              rw [hz]
              exact Nat.zero_le _
          | some t =>
              have hmemt := mem_of_lookupKey _ _ _ hl
              have hc := hkey l
              rw [hl] at hc
              have hconfl : confsOf (d :: ds') l ≠ [] := by
                intro hcc
                rw [if_pos hcc] at hc
                cases hc
              rw [if_neg hconfl] at hc
              have ht : t.count = countLabel (d :: ds') l := by
                rw [Option.some.inj hc, ← confsOf_length]
              calc countLabel (d :: ds') l = t.count := ht.symm
                _ ≤ s.count := hall (l, t) hmemt
                _ = countLabel (d :: ds') pk := hcount

/-- C5 witness: Scenario A — two "alligator" and one "pothole" detection
give primary type "alligator", whose count bounds the "pothole" count. -/
theorem C5_primary_class_decision_witness :
    primaryCrackType (classify_image (.ready scenarioA) "u") = "alligator" ∧
    0 < countLabel scenarioA (primaryCrackType (classify_image (.ready scenarioA) "u")) ∧
    countLabel scenarioA "pothole" ≤
      countLabel scenarioA (primaryCrackType (classify_image (.ready scenarioA) "u")) := by
  have h := (C5_primary_class_decision scenarioA "u").2 (by simp [scenarioA])
  refine ⟨?_, h.1, h.2 "pothole"⟩
  decide

/-! ### Claim C8 -/

/-- C8: for an existing entry the merged view returns a response whose
status is "completed" exactly when a DetectionSummary row exists for the
entry and "pending" exactly when none does — a missing summary is never
an error — while an unknown entry id yields the distinct NotFound
signal. -/
theorem C8_merged_view_status (db : DB) (oracle : String → Option UserRec) (eid : String) :
    (Database.get_entry_by_id db eid = none →
      Router.get_entry_view db oracle eid = Router.GetEntryResult.notFound) ∧
    (∀ e, Database.get_entry_by_id db eid = some e →
      ∃ fe inf, Router.get_entry_view db oracle eid = Router.GetEntryResult.ok fe inf ∧
        (inf.status = "completed" ↔ (Database.get_detection_summary db eid).isSome = true) ∧
        (inf.status = "pending" ↔ Database.get_detection_summary db eid = none)) := by
  constructor
  · intro h
    simp [Router.get_entry_view, h]
  · intro e he
    obtain ⟨u, hu⟩ := get_user_isSome oracle e.user_id
    cases hs : Database.get_detection_summary db eid with
    | none =>
        refine ⟨format_entry_response e u, ⟨0, [], "pending"⟩, ?_, ?_, ?_⟩
        · simp [Router.get_entry_view, he, hu, hs]
        · exact iff_of_false (by decide) (by simp)
        · exact iff_of_true rfl rfl
    | some s =>
        refine ⟨format_entry_response e u, ⟨s.total_cracks, s.crack_types, "completed"⟩,
          ?_, ?_, ?_⟩
        · simp [Router.get_entry_view, he, hu, hs]
        · exact iff_of_true rfl rfl
        · exact iff_of_false (show ¬("completed" : String) = "pending" by decide) (by simp)

/-- C8 witness: a database holding entry "e1" and no summary — the view
succeeds (it is not NotFound) even though the summary is missing. -/
theorem C8_merged_view_status_witness :
    Database.get_detection_summary dbE1 "e1" = none ∧
    Router.get_entry_view dbE1 (fun _ => none) "e1" ≠
      Router.GetEntryResult.notFound := by
  have h := (C8_merged_view_status dbE1 (fun _ => none) "e1").2 entryE1 rfl
  obtain ⟨fe, inf, hok, _, _⟩ := h
  refine ⟨rfl, ?_⟩
  rw [hok]
  intro hcon
  cases hcon

/-! ### Claim C2 -/

/-- C2: creating an entry with coordinates `[200, 10]` (longitude out of
range) is not rejected: the repository's own `validate_coordinates`
classifies them as invalid, yet the create path never calls it — the
request succeeds, the image is stored, and an Entry row with those
coordinates is persisted. -/
theorem C2_out_of_range_coordinates_accepted :
    validate_coordinates [200, 10] = false ∧
    (Router.create_entry emptyState reqC2 (.ready [])).2.isOk = true ∧
    (Router.create_entry emptyState reqC2 (.ready [])).1.db.road_cracks.length = 1 ∧
    ((Router.create_entry emptyState reqC2 (.ready [])).1.db.road_cracks.map
        (fun r => r.coordinates)) = [[200, 10]] ∧
    (Router.create_entry emptyState reqC2 (.ready [])).1.s3.length = 1 := by
  refine ⟨?_, rfl, rfl, rfl, rfl⟩
  norm_num [validate_coordinates]

/-! ### Claim C1 -/

/-- C1 counterexample: reconciling entry "e1" twice with the same
one-detection result does not leave the stored state identical to
reconciling once — the detection and summary writes are plain inserts, so
the second run duplicates rows (2 detection rows and 2 summary rows
instead of 1 and 1). -/
theorem C1_second_run_duplicates_rows :
    (Database.get_crack_detections runOnce.db "e1").length = 1 ∧
    (summariesFor runOnce.db "e1").length = 1 ∧
    (Database.get_crack_detections runTwice.db "e1").length = 2 ∧
    (summariesFor runTwice.db "e1").length = 2 ∧
    runTwice.db ≠ runOnce.db := by
  refine ⟨rfl, rfl, rfl, rfl, ?_⟩
  intro h
  have hlen := congrArg (fun d => (Database.get_crack_detections d "e1").length) h
  exact absurd hlen (by decide)

/-- C1 amended: re-running the inline reconciliation with the same
detection result leaves the Entry table unchanged (the same update is
applied again), but appends a fresh copy of every Detection row and one
more DetectionSummary row for the entry instead of replacing them. -/
theorem C1_rerun_appends_not_replaces (db : DB) (eid : String)
    (detRes : DetectionResult) (g : Nat) (r : EntryRow) (rest : List EntryRow)
    (h : db.road_cracks.filter (fun x => x.id == eid) = r :: rest) :
    (reconcileDetection (reconcileDetection db eid detRes g).db eid detRes
        (reconcileDetection db eid detRes g).gen).db.road_cracks =
      (reconcileDetection db eid detRes g).db.road_cracks ∧
    (Database.get_crack_detections (reconcileDetection
        (reconcileDetection db eid detRes g).db eid detRes
        (reconcileDetection db eid detRes g).gen).db eid).length =
      (Database.get_crack_detections (reconcileDetection db eid detRes g).db eid).length +
        detRes.detections.length ∧
    (summariesFor (reconcileDetection (reconcileDetection db eid detRes g).db eid detRes
        (reconcileDetection db eid detRes g).gen).db eid).length =
      (summariesFor (reconcileDetection db eid detRes g).db eid).length + 1 := by
  have h1 := reconcileDetection_of_filter_cons db eid detRes g r rest h
  have hfilter2 : ((reconcileDetection db eid detRes g).db.road_cracks.filter
      (fun x => x.id == eid)) =
        ((fun x => if x.id == eid then
            applyUpdate ⟨primaryCrackType detRes, detRes.classified_image_url⟩ x else x) r) ::
          rest.map (fun x => if x.id == eid then
            applyUpdate ⟨primaryCrackType detRes, detRes.classified_image_url⟩ x else x) := by
    rw [h1]
    show ((db.road_cracks.map _).filter _) = _
    rw [filter_map_updFun, h, List.map_cons]
  have h2 := reconcileDetection_of_filter_cons (reconcileDetection db eid detRes g).db eid
    detRes (reconcileDetection db eid detRes g).gen _ _ hfilter2
  rw [h2]
  refine ⟨?_, ?_, ?_⟩
  · show ((reconcileDetection db eid detRes g).db.road_cracks.map _) = _
    rw [h1]
    show ((db.road_cracks.map _).map _) = db.road_cracks.map _
    rw [List.map_map]
    apply List.map_congr_left
    intro r' _
    exact updFun_idem ⟨primaryCrackType detRes, detRes.classified_image_url⟩ eid r'
  · show ((((reconcileDetection db eid detRes g).db.crack_detections ++
        detRowsFrom eid (reconcileDetection db eid detRes g).gen
          detRes.detections)).filter (fun x => x.road_crack_id == eid)).length = _
    rw [List.filter_append, detRowsFrom_filter, List.length_append, detRowsFrom_length]
    rfl
  · show ((((reconcileDetection db eid detRes g).db.detection_summaries ++ _)).filter
        (fun x => x.road_crack_id == eid)).length = _
    rw [List.filter_append, List.length_append]
    simp [summariesFor]

/-- C1 witness: the amended statement at a concrete database. -/
theorem C1_rerun_appends_not_replaces_witness :
    (Database.get_crack_detections (reconcileDetection
        (reconcileDetection dbE1 "e1" detResA 0).db "e1" detResA
        (reconcileDetection dbE1 "e1" detResA 0).gen).db "e1").length =
      (Database.get_crack_detections (reconcileDetection dbE1 "e1" detResA 0).db "e1").length +
        detResA.detections.length :=
  (C1_rerun_appends_not_replaces dbE1 "e1" detResA 0 entryE1 [] rfl).2.1

/-! ### Claim C6 -/

/-- C6 counterexample: after the async backup path re-reconciles an entry
the synchronous path already completed (both runs writing the same
one-detection result), the stored summary still says `total_cracks = 1`
while the entry now has 2 stored detection rows, so the summary no longer
equals the reduction of the entry's Detection rows. -/
theorem C6_summary_not_recomputable_after_rerun :
    (Database.get_detection_summary runTwice.db "e1").map
        (fun s => s.total_cracks) = some 1 ∧
    (reduceRows (Database.get_crack_detections runTwice.db "e1")).total_cracks = 2 ∧
    (Database.get_detection_summary runTwice.db "e1").map summaryValOf ≠
      some (reduceRows (Database.get_crack_detections runTwice.db "e1")) := by
  refine ⟨rfl, rfl, ?_⟩
  intro h
  have htot := congrArg (fun o => o.map (fun v : SummaryVal => v.total_cracks)) h
  exact absurd htot (by decide)

/-- C6 amended: after a single reconciliation of a fresh entry (no prior
detection or summary rows), the stored summary equals the reduction of
the entry's stored Detection rows, for every detector outcome — the
recoverability invariant holds until a re-run appends duplicates. -/
theorem C6_summary_recomputable_first_run (db : DB) (eid : String) (det : DetectorState)
    (u : String) (g : Nat) (r : EntryRow) (rest : List EntryRow)
    (hrc : db.road_cracks.filter (fun x => x.id == eid) = r :: rest)
    (hdet : db.crack_detections.filter (fun x => x.road_crack_id == eid) = [])
    (hsum : db.detection_summaries.filter (fun x => x.road_crack_id == eid) = []) :
    (Database.get_detection_summary
        (reconcileDetection db eid (classify_image det u) g).db eid).map summaryValOf =
      some (reduceRows (Database.get_crack_detections
        (reconcileDetection db eid (classify_image det u) g).db eid)) := by
  obtain ⟨htot, hcts⟩ := classify_image_consistent det u
  generalize hD : classify_image det u = detRes at htot hcts ⊢
  rw [reconcileDetection_of_filter_cons db eid _ g r rest hrc]
  show ((db.detection_summaries ++ _).filter _).head?.map summaryValOf =
    some (reduceRows ((db.crack_detections ++ _).filter _))
  rw [List.filter_append, hsum, List.filter_append, hdet, List.nil_append,
    List.nil_append, detRowsFrom_filter]
  simp [List.filter_cons, summaryValOf, reduceRows, detRowsFrom_length,
    detRowsFrom_foldGroup, htot, hcts, groupConfs]

/-- C6 witness: the amended statement at a concrete database holding a
fresh entry "e1". -/
theorem C6_summary_recomputable_first_run_witness :
    (Database.get_detection_summary
        (reconcileDetection dbE1 "e1"
          (classify_image (.ready [⟨0, 0, 10, 10, 17/20, 0, "alligator"⟩])
            "classified-url") 0).db "e1").map summaryValOf =
      some (reduceRows (Database.get_crack_detections
        (reconcileDetection dbE1 "e1"
          (classify_image (.ready [⟨0, 0, 10, 10, 17/20, 0, "alligator"⟩])
            "classified-url") 0).db "e1")) :=
  C6_summary_recomputable_first_run dbE1 "e1"
    (.ready [⟨0, 0, 10, 10, 17/20, 0, "alligator"⟩]) "classified-url" 0
    entryE1 [] rfl rfl rfl

/-! ### Claim C7 -/

/-- C7: when the detector is unavailable (model not loaded, or inference
raising) during entry creation, the request still succeeds; the entry
ends with primary type "alligator" — a member of the fixed `CRACK_TYPES`
vocabulary, not "unknown" — a summary with `total_cracks = 1` and the
fixed placeholder confidence 85.0 is persisted, and the merged view
reports status "completed". -/
theorem C7_fallback_on_detector_failure (st : SysState) (req : CreateRequest)
    (det : DetectorState) (oracle : String → Option UserRec) (a b : ℚ)
    (hsev : req.severity = "minor" ∨ req.severity = "major")
    (hco : req.coordinates = CoordsInput.parsed [a, b])
    (hdet : det = DetectorState.modelUnavailable ∨ det = DetectorState.inferenceError)
    (hfresh : ∀ r ∈ st.db.road_cracks, r.id ≠ mkId (st.gen + 1))
    (hsum : ∀ s ∈ st.db.detection_summaries, s.road_crack_id ≠ mkId (st.gen + 1)) :
    (Router.create_entry st req det).2.isOk = true ∧
    (∃ e, Database.get_entry_by_id (Router.create_entry st req det).1.db
        (mkId (st.gen + 1)) = some e ∧
      e.type = "alligator" ∧ e.type ∈ CRACK_TYPES ∧ e.type ≠ "unknown") ∧
    (∃ s, Database.get_detection_summary (Router.create_entry st req det).1.db
        (mkId (st.gen + 1)) = some s ∧
      s.total_cracks = 1 ∧ lookupKey s.crack_types "alligator" = some ⟨1, 85⟩) ∧
    (∃ fe inf, Router.get_entry_view (Router.create_entry st req det).1.db oracle
        (mkId (st.gen + 1)) = Router.GetEntryResult.ok fe inf ∧
      inf.status = "completed") := by
  have hsev' : ¬¬(req.severity = "minor" ∨ req.severity = "major") := not_not_intro hsev
  have hfall : ∀ url, classify_image det url = fallbackResult := by
    rcases hdet with rfl | rfl <;> intro url <;> rfl
  have hfrow : ((⟨st.db.road_cracks ++ [createdRow req a b st.gen],
      st.db.crack_detections, st.db.detection_summaries⟩ : DB)).road_cracks.filter
        (fun x => x.id == mkId (st.gen + 1)) = [createdRow req a b st.gen] := by
    show (st.db.road_cracks ++ _).filter (fun x => x.id == mkId (st.gen + 1)) = _
    rw [List.filter_append]
    rw [show st.db.road_cracks.filter (fun x => x.id == mkId (st.gen + 1)) = [] from
      filter_beq_nil _ _ _ hfresh]
    simp
  have hmain : Router.create_entry st req det =
      (createdStateFallback st req a b, createdReplyFallback st req a b) := by
    simp only [Router.create_entry, hco]
    rw [if_neg hsev']
    rw [if_neg (show ¬(([a, b] : List ℚ).length ≠ 2) from by simp)]
    dsimp only [Database.create_entry]
    rw [hfall]
    rw [reconcileDetection_of_filter_cons
      ⟨st.db.road_cracks ++ [createdRow req a b st.gen],
        st.db.crack_detections, st.db.detection_summaries⟩
      (mkId (st.gen + 1)) fallbackResult (st.gen + 1 + 1 + 1) _ [] hfrow]
    rfl
  have hentry : Database.get_entry_by_id (Router.create_entry st req det).1.db
      (mkId (st.gen + 1)) =
      some (applyUpdate fallbackUpd (createdRow req a b st.gen)) := by
    rw [hmain]
    show ((st.db.road_cracks ++ [createdRow req a b st.gen]).map
        (fun (x : EntryRow) =>
          if x.id == mkId (st.gen + 1) then applyUpdate fallbackUpd x else x)).find?
        (fun (r : EntryRow) => r.id == mkId (st.gen + 1)) =
      some (applyUpdate fallbackUpd (createdRow req a b st.gen))
    rw [List.map_append]
    rw [find?_append_of_none _ _ _ (show (st.db.road_cracks.map
        (fun (x : EntryRow) =>
          if x.id == mkId (st.gen + 1) then applyUpdate fallbackUpd x else x)).find?
          (fun (r : EntryRow) => r.id == mkId (st.gen + 1)) = none from
      find?_beq_none _ (fun (r : EntryRow) => r.id) _ (by
        intro x hx
        obtain ⟨r', hr', heq⟩ := List.mem_map.mp hx
        have hid : x.id = r'.id := by
          rw [← heq]
          exact updFun_id _ _ _
        show x.id ≠ mkId (st.gen + 1)
        rw [hid]
        exact hfresh r' hr'))]
    simp [applyUpdate_id]
  have hsummary : Database.get_detection_summary (Router.create_entry st req det).1.db
      (mkId (st.gen + 1)) =
      some ⟨mkId (st.gen + 1 + 1 + 1 + fallbackResult.detections.length),
        mkId (st.gen + 1), fallbackResult.total_cracks, fallbackResult.crack_types⟩ := by
    rw [hmain]
    show ((st.db.detection_summaries ++
        [(⟨mkId (st.gen + 1 + 1 + 1 + fallbackResult.detections.length),
          mkId (st.gen + 1), fallbackResult.total_cracks,
          fallbackResult.crack_types⟩ : SummaryRow)]).filter
      (fun (s : SummaryRow) => s.road_crack_id == mkId (st.gen + 1))).head? =
      some (⟨mkId (st.gen + 1 + 1 + 1 + fallbackResult.detections.length),
        mkId (st.gen + 1), fallbackResult.total_cracks,
        fallbackResult.crack_types⟩ : SummaryRow)
    rw [List.filter_append]
    rw [show st.db.detection_summaries.filter
        (fun s => s.road_crack_id == mkId (st.gen + 1)) = [] from
      filter_beq_nil _ _ _ hsum]
    simp
  refine ⟨?_, ?_, ?_, ?_⟩
  · rw [hmain]
    rfl
  · refine ⟨_, hentry, rfl, ?_, ?_⟩
    · show ("alligator" : String) ∈ CRACK_TYPES
      decide
    · show ("alligator" : String) ≠ "unknown"
      decide
  · refine ⟨_, hsummary, ?_, ?_⟩
    · show fallbackResult.total_cracks = 1
      rfl
    · show lookupKey fallbackResult.crack_types "alligator" = some ⟨1, 85⟩
      rfl
  · obtain ⟨u', hu'⟩ := get_user_isSome oracle
      (applyUpdate fallbackUpd (createdRow req a b st.gen)).user_id
    refine ⟨format_entry_response (applyUpdate fallbackUpd (createdRow req a b st.gen)) u',
      ⟨fallbackResult.total_cracks, fallbackResult.crack_types, "completed"⟩, ?_, rfl⟩
    simp [Router.get_entry_view, hentry, hu', hsummary]

/-- C7 witness: the statement at a concrete empty initial state with the
model unavailable. -/
theorem C7_fallback_on_detector_failure_witness :
    (Router.create_entry emptyState reqC7 DetectorState.modelUnavailable).2.isOk = true ∧
    (∃ e, Database.get_entry_by_id
        (Router.create_entry emptyState reqC7 DetectorState.modelUnavailable).1.db
        (mkId 1) = some e ∧
      e.type = "alligator" ∧ e.type ∈ CRACK_TYPES ∧ e.type ≠ "unknown") ∧
    (∃ s, Database.get_detection_summary
        (Router.create_entry emptyState reqC7 DetectorState.modelUnavailable).1.db
        (mkId 1) = some s ∧
      s.total_cracks = 1 ∧ lookupKey s.crack_types "alligator" = some ⟨1, 85⟩) ∧
    (∃ fe inf, Router.get_entry_view
        (Router.create_entry emptyState reqC7 DetectorState.modelUnavailable).1.db
        (fun _ => none) (mkId 1) = Router.GetEntryResult.ok fe inf ∧
      inf.status = "completed") :=
  C7_fallback_on_detector_failure emptyState reqC7 DetectorState.modelUnavailable
    (fun _ => none) 120 10 (Or.inr rfl) rfl (Or.inl rfl)
    (by intro r hr; cases hr) (by intro s hs; cases hs)

end Dalan
